import Mathlib

/-!
Shallow embedding of `fetch-cookie` (`src/index.ts`): a cookie-persisting,
redirect-following wrapper around a `fetch`-style HTTP transport.

URL values are modelled by the two observations the library makes of them:
the `hostname` of the parsed URL and the serialized `href` (`toString()` /
`response.url`).  Relative URL resolution (`new URL(location, base)`) is an
external platform facility and is passed in as an explicit `resolve`
function.  String primitives that the library uses (`toLowerCase`,
`endsWith`, `split(/[,\s]+/)`) are modelled structurally on the character
list of the string, matching the JavaScript character-level semantics.
-/

namespace FetchCookie

/-- A parsed URL, reduced to the two fields the library observes:
`hostname` (used by `isDomainOrSubdomain`) and the serialized `href`
(`toString()`, `response.url`). -/
structure URLRecord where
  hostname : String
  href : String
deriving DecidableEq

/-- JavaScript `s.toLowerCase()`, character by character. -/
def strToLower (s : String) : String :=
  String.mk (s.data.map Char.toLower)

/-- JavaScript `s.endsWith(suffix)`: the characters of `suffix` are a suffix
of the characters of `s`. -/
def strEndsWith (s suffix : String) : Bool :=
  suffix.data.isSuffixOf s.data

/-- Transcription of `isDomainOrSubdomain(destination, original)`:
with `orig`/`dest` the hostnames of the two URLs, it returns
`orig === dest || orig.endsWith('.' + dest)`. -/
def isDomainOrSubdomain (destination original : URLRecord) : Bool :=
  original.hostname == destination.hostname
    || strEndsWith original.hostname ("." ++ destination.hostname)

/-- Model of a request body (`init.body`): absent (`null`/`undefined`),
a buffered (replayable) value, a Node.js readable stream (exposes `.pipe`),
or a WHATWG `ReadableStream` (exposes `.pipeTo`). -/
inductive BodyVal where
  | nullBody
  | buffered (data : String)
  | nodeStream
  | webStream
deriving DecidableEq

/-- The check `init.body != null`. -/
def bodyPresent : BodyVal → Bool
  | .nullBody => false
  | _ => true

/-- The probe `typeof body.pipe === 'function' || typeof body.pipeTo === 'function'`:
the body is a one-shot stream. -/
def bodyIsOneShot : BodyVal → Bool
  | .nodeStream => true
  | .webStream => true
  | _ => false

/-- Model of the three header shapes the library probes at runtime:
absent headers (`init.headers == null`), a `Headers`-like object (has the
`delete`/`append` capabilities), or a plain `Record<string, string>` object.
Entries are ordered key/value pairs. -/
inductive HeadersVal where
  | null
  | headersObj (entries : List (String × String))
  | plainObj (entries : List (String × String))
deriving DecidableEq

/-- Transcription of `identifyDeleteHeader` composed with the selected strategy:
`doNothing` when `init.headers == null`, `callDeleteMethod`
(`Headers.prototype.delete`, which removes the name case-insensitively)
when a `delete` capability is present, and otherwise `deleteFromObject`
(removes every key whose `toLowerCase()` equals the name). -/
def headerDelete (h : HeadersVal) (name : String) : HeadersVal :=
  match h with
  | .null => .null
  | .headersObj es =>
      .headersObj (es.filter (fun kv => strToLower kv.1 != strToLower name))
  | .plainObj es =>
      .plainObj (es.filter (fun kv => strToLower kv.1 != name))

/-- The list of values stored under a (lower-case) header name. -/
def headerValues (h : HeadersVal) (name : String) : List String :=
  match h with
  | .null => []
  | .headersObj es =>
      (es.filter (fun kv => strToLower kv.1 == name)).map (fun kv => kv.2)
  | .plainObj es =>
      (es.filter (fun kv => strToLower kv.1 == name)).map (fun kv => kv.2)

/-- Whether a header with the given (lower-case) name is present. -/
def hasHeader (h : HeadersVal) (name : String) : Bool :=
  !(headerValues h name).isEmpty

/-- The fixed referrer-policy token set (`referrerPolicy` in the source). -/
def referrerPolicySet : List String :=
  ["", "no-referrer", "no-referrer-when-downgrade", "same-origin", "origin",
   "strict-origin", "origin-when-cross-origin",
   "strict-origin-when-cross-origin", "unsafe-url"]

/-- A separator character of the regular expression `[,\s]+`. -/
def isSepChar (c : Char) : Bool :=
  c == ',' || c.isWhitespace || c == '\x0b' || c == '\x0c'

/-- Split a character list at every character satisfying `p`, keeping the
empty pieces between adjacent separators (the single-separator split that
maximal-run splitting is derived from). -/
def splitEvery (p : Char → Bool) : List Char → List (List Char)
  | [] => [[]]
  | c :: cs =>
    if p c then [] :: splitEvery p cs
    else
      match splitEvery p cs with
      | [] => [[c]]
      | t :: ts => (c :: t) :: ts

/-- JavaScript `s.split(/[,\s]+/)`: maximal separator runs split the string;
a separator run at the very start or end contributes one empty token, and
the empty string yields one empty token. -/
def jsSplitTokens (s : String) : List String :=
  match s.data with
  | [] => [""]
  | c :: cs =>
    (if isSepChar c then [""] else [])
      ++ ((splitEvery isSepChar (c :: cs)).filter
            (fun t => !t.isEmpty)).map (fun t => String.mk t)
      ++ (if isSepChar ((c :: cs).getLastD c) then [""] else [])

/-- Transcription of `parseReferrerPolicy`: fold over the tokens of the
header value, remembering the last token that is non-empty and belongs to
`referrerPolicySet`; the fold starts from `''`. -/
def parseReferrerPolicy (policyHeader : String) : String :=
  (jsSplitTokens policyHeader).foldl
    (fun policy token =>
      if token != "" && referrerPolicySet.contains token then token
      else policy)
    ""

/-- The parse rule exactly as the specification words it: split the header
value and take the last token that is a member of the fixed set (a set that
contains the empty string), defaulting to the empty result.  Written from
the specification text, for comparison with `parseReferrerPolicy`. -/
def specLastPolicyToken (s : String) : String :=
  ((jsSplitTokens s).filter
      (fun t => referrerPolicySet.contains t)).getLastD ""

/-- The redirect status set (`redirectStatus` in the source). -/
def redirectStatus : List Nat := [301, 302, 303, 307, 308]

/-- Transcription of `isRedirect`. -/
def isRedirect (status : Nat) : Bool :=
  redirectStatus.contains status

/-- The request-configuration record (`FetchCookieInit`): the standard
`RequestInit` fields the library reads or writes, plus the two extra options
`maxRedirect` and `redirectCount`.  `none` models an absent (`undefined`)
field; every field is absent in the empty object `{}`. -/
structure FetchInit where
  redirect : Option String := none
  redirectCount : Option Nat := none
  maxRedirect : Option Nat := none
  method : Option String := none
  body : BodyVal := .nullBody
  headers : HeadersVal := .null
  referrerPolicy : Option String := none
deriving DecidableEq

/-- A response: the resolved `url`, the `status`, the response headers the
library reads (`location`, `referrer-policy`, the raw `set-cookie` values),
and the `redirected` flag. -/
structure FetchResponse where
  url : URLRecord
  status : Nat
  location : Option String := none
  referrerPolicyHeader : Option String := none
  setCookies : List String := []
  redirected : Bool := false
deriving DecidableEq

/-- The `TypeError` failures the library can throw. -/
inductive FetchError where
  | invalidOption (mode : String)
  | redirectNotAllowed (url : String)
  | redirectLimitExceeded (limit : Nat) (url : String)
  | unreplayableBody
deriving DecidableEq

/-- Outcome of `handleRedirect`: a thrown failure, a terminal response
returned as-is, or a recursive call `fetchImpl(redirectUrl, init)` into the
wrapper with the rewritten record. -/
inductive RedirectOutcome where
  | failure (e : FetchError)
  | terminal (r : FetchResponse)
  | follow (redirectUrl : URLRecord) (init : FetchInit)
deriving DecidableEq

/-- The headers the library refuses to forward to third-party domains. -/
def sensitiveHeaders : List String :=
  ["authorization", "www-authenticate", "cookie", "cookie2"]

/-- The cross-origin strip applied when the redirect target is not covered:
`deleteHeader(init, name)` for each sensitive header name. -/
def stripHeadersAll (h : HeadersVal) : HeadersVal :=
  sensitiveHeaders.foldl headerDelete h

/-- The method/body downgrade condition of `handleRedirect`:
`status === 303 || ((status === 301 || status === 302) && method === 'POST')`. -/
def downgradeCondition (status : Nat) (method : Option String) : Bool :=
  status == 303 || ((status == 301 || status == 302) && method == some "POST")

/-- The body-compatibility condition of `handleRedirect`:
`status !== 303 && body != null && (pipe || pipeTo is a function)`. -/
def unreplayableCondition (status : Nat) (body : BodyVal) : Bool :=
  status != 303 && bodyPresent body && bodyIsOneShot body

/-- Transcription of `handleRedirect` after the redirect-mode switch has
selected `follow` (the code past the `break`): location check, relative
resolution of the target, ceiling check, clone with incremented
`redirectCount`, cross-origin stripping, body-compatibility check,
method/body downgrade, referrer-policy propagation, and the recursive call.
`resolve` models `new URL(locationUrl, requestUrl).toString()`. -/
def handleRedirectFollow (resolve : String → URLRecord → URLRecord)
    (init : FetchInit) (response : FetchResponse) : RedirectOutcome :=
  match response.location with
  | none => .terminal response
  | some locationUrl =>
    let requestUrl := response.url
    let redirectUrl := resolve locationUrl requestUrl
    let redirectCount := init.redirectCount.getD 0
    let maxRedirect := init.maxRedirect.getD 20
    if maxRedirect ≤ redirectCount then
      .failure (.redirectLimitExceeded maxRedirect requestUrl.href)
    else
      let init1 : FetchInit := { init with redirectCount := some (redirectCount + 1) }
      let init2 : FetchInit :=
        if isDomainOrSubdomain requestUrl redirectUrl then init1
        else { init1 with headers := stripHeadersAll init1.headers }
      if unreplayableCondition response.status init2.body then
        .failure .unreplayableBody
      else
        let init3 : FetchInit :=
          if downgradeCondition response.status init2.method then
            { init2 with method := some "GET", body := .nullBody,
                         headers := headerDelete init2.headers "content-length" }
          else init2
        let init4 : FetchInit :=
          match response.referrerPolicyHeader with
          | some v => { init3 with referrerPolicy := some (parseReferrerPolicy v) }
          | none => init3
        .follow redirectUrl init4

/-- Transcription of `handleRedirect`: the switch on
`init.redirect ?? 'follow'` (a case dispatch on string equality), then the
follow path. -/
def handleRedirect (resolve : String → URLRecord → URLRecord)
    (init : FetchInit) (response : FetchResponse) : RedirectOutcome :=
  let mode := init.redirect.getD "follow"
  if mode = "error" then .failure (.redirectNotAllowed response.url.href)
  else if mode = "manual" then .terminal response
  else if mode = "follow" then handleRedirectFollow resolve init response
  else .failure (.invalidOption mode)

/-- Model of `RequestInfo`: either a URL string or a `Request`-like object carrying
its own headers collection. -/
inductive RequestInput where
  | urlInput (u : URLRecord)
  | requestInput (u : URLRecord) (headers : HeadersVal)
deriving DecidableEq

/-- The resolution `typeof input === 'string' ? input : input.url`. -/
def requestInputUrl : RequestInput → URLRecord
  | .urlInput u => u
  | .requestInput u _ => u

/-- The probe `headers && typeof headers.append === 'function'`. -/
def headersAppendable : HeadersVal → Bool
  | .headersObj _ => true
  | _ => false

/-- The capability `Headers.prototype.append`: adds one more entry under the name. -/
def headerAppend (h : HeadersVal) (name value : String) : HeadersVal :=
  match h with
  | .headersObj es => .headersObj (es ++ [(name, value)])
  | other => other

/-- The own-enumerable entries of `init.headers` as seen by object spread:
a plain object contributes its entries; absent headers contribute nothing;
spreading a `Headers` instance also yields no own-enumerable properties. -/
def plainEntries : HeadersVal → List (String × String)
  | .plainObj es => es
  | _ => []

/-- JavaScript object literal `{...es, key: value}`: an existing binding of
exactly `key` is overwritten in place in the key order, otherwise the new
binding is appended. -/
def objSet (es : List (String × String)) (key value : String) :
    List (String × String) :=
  if es.any (fun kv => kv.1 == key) then
    es.map (fun kv => if kv.1 == key then (key, value) else kv)
  else es ++ [(key, value)]

/-- Property lookup on a plain-object entry list. -/
def objGet (es : List (String × String)) (key : String) : Option String :=
  (es.find? (fun kv => kv.1 == key)).map (fun kv => kv.2)

/-- Transcription of `addCookiesToRequest`: an empty cookie string is a
no-op; otherwise append to the request object's own headers when they are
append-capable, else append to `init.headers` when those are append-capable,
else produce a new record via the shallow merge
`{...init, headers: {...init.headers, cookie}}`.  The result is the pair of
the (possibly mutated) input and the returned `init`. -/
def addCookiesToRequest (input : RequestInput) (init : FetchInit)
    (cookie : String) : RequestInput × FetchInit :=
  if cookie == "" then (input, init)
  else
    match input with
    | .requestInput u hs =>
      if headersAppendable hs then
        (.requestInput u (headerAppend hs "cookie" cookie), init)
      else if headersAppendable init.headers then
        (input, { init with headers := headerAppend init.headers "cookie" cookie })
      else
        (input, { init with
                  headers := .plainObj (objSet (plainEntries init.headers) "cookie" cookie) })
    | .urlInput u =>
      if headersAppendable init.headers then
        (.urlInput u, { init with headers := headerAppend init.headers "cookie" cookie })
      else
        (.urlInput u, { init with
                        headers := .plainObj (objSet (plainEntries init.headers) "cookie" cookie) })

/-- The cookie jar collaborator, over an abstract jar state `σ`:
`getCookieString(url)` and `setCookie(cookie, url)` (the `ignoreError`
handling lives inside the collaborator). -/
structure JarModel (σ : Type) where
  getCookieString : σ → String → String
  setCookie : σ → String → String → σ

/-- Transcription of the recursive `fetchCookieWrapper`: snapshot the
original init, force `redirect: 'manual'`, resolve the request URL, inject
jar cookies, call the transport, store harvested cookies, mark `redirected`
when a hop already occurred, return non-redirect responses, and otherwise
hand off to `handleRedirect`, which recurses with the rewritten record.
`fuel` bounds the recursion depth of the model; `none` means the fuel ran
out before the chain terminated. -/
def fetchCookieWrapper {σ : Type} (jm : JarModel σ)
    (transport : RequestInput → FetchInit → FetchResponse)
    (resolve : String → URLRecord → URLRecord) :
    Nat → σ → RequestInput → Option FetchInit →
    Option (Except FetchError (FetchResponse × σ))
  | 0, _, _, _ => none
  | fuel + 1, jar, input, initOpt =>
    let originalInit := initOpt.getD {}
    let init1 : FetchInit := { originalInit with redirect := some "manual" }
    let requestUrl := requestInputUrl input
    let cookie := jm.getCookieString jar requestUrl.href
    let p := addCookiesToRequest input init1 cookie
    let response := transport p.1 p.2
    let jar2 := response.setCookies.foldl
      (fun j c => jm.setCookie j c response.url.href) jar
    let response2 :=
      if 0 < p.2.redirectCount.getD 0 then { response with redirected := true }
      else response
    if isRedirect response2.status then
      match handleRedirect resolve originalInit response2 with
      | .failure e => some (.error e)
      | .terminal r => some (.ok (r, jar2))
      | .follow u newInit =>
        fetchCookieWrapper jm transport resolve fuel jar2 (.urlInput u) (some newInit)
    else
      some (.ok (response2, jar2))

/-!
A heap-accurate re-reading of the redirect hop, used to study object
identity.  In JavaScript, `init = { ...init, redirectCount: ... }` copies
the *reference* stored in `init.headers`, so the clone and the previous
record point at the same headers object, and the deletion strategies
(`callDeleteMethod`, `deleteFromObject`) mutate that shared object in
place.  The heap of headers objects is modelled explicitly: `HeaderStore`
maps an address to the entry list of one headers object, and a record
holds an address (`headersRef`) instead of a headers value (`none` models
`init.headers == null`).
-/

/-- Heap of headers objects, addressed by list index. -/
abbrev HeaderStore := List (List (String × String))

/-- A request record whose headers field is a reference into the heap. -/
structure HInit where
  redirect : Option String := none
  redirectCount : Option Nat := none
  maxRedirect : Option Nat := none
  method : Option String := none
  body : BodyVal := .nullBody
  headersRef : Option Nat := none
  referrerPolicy : Option String := none
deriving DecidableEq

/-- Outcome of the heap-level redirect hop. -/
inductive HOutcome where
  | failure (e : FetchError)
  | terminal (r : FetchResponse)
  | follow (redirectUrl : URLRecord) (init : HInit)
deriving DecidableEq

/-- The call `deleteHeader(init, name)` at heap level: a no-op when the record holds
no headers object, and otherwise an in-place update of the referenced cell
(both `callDeleteMethod` and `deleteFromObject` remove every entry whose
lower-cased key equals the name). -/
def storeDelete (store : HeaderStore) (ref : Option Nat) (name : String) :
    HeaderStore :=
  match ref with
  | none => store
  | some a =>
      store.set a ((store.getD a []).filter
        (fun kv => strToLower kv.1 != name))

/-- The follow path of the redirect hop, at heap level: identical control
flow to `handleRedirectFollow`, with the object spread copying `headersRef`
unchanged into the clone and every header deletion mutating the heap cell
both records point at. -/
def handleRedirectHeapFollow (resolve : String → URLRecord → URLRecord)
    (store : HeaderStore) (init : HInit) (response : FetchResponse) :
    HeaderStore × HOutcome :=
  match response.location with
  | none => (store, .terminal response)
  | some locationUrl =>
    let requestUrl := response.url
    let redirectUrl := resolve locationUrl requestUrl
    let redirectCount := init.redirectCount.getD 0
    let maxRedirect := init.maxRedirect.getD 20
    if maxRedirect ≤ redirectCount then
      (store, .failure (.redirectLimitExceeded maxRedirect requestUrl.href))
    else
      let init1 : HInit := { init with redirectCount := some (redirectCount + 1) }
      let store1 :=
        if isDomainOrSubdomain requestUrl redirectUrl then store
        else sensitiveHeaders.foldl
          (fun st n => storeDelete st init1.headersRef n) store
      if unreplayableCondition response.status init1.body then
        (store1, .failure .unreplayableBody)
      else
        let dg := downgradeCondition response.status init1.method
        let init2 : HInit :=
          if dg then { init1 with method := some "GET", body := .nullBody }
          else init1
        let store2 :=
          if dg then storeDelete store1 init1.headersRef "content-length"
          else store1
        let init3 : HInit :=
          match response.referrerPolicyHeader with
          | some v => { init2 with referrerPolicy := some (parseReferrerPolicy v) }
          | none => init2
        (store2, .follow redirectUrl init3)

/-- The redirect hop of `handleRedirect`, at heap level: the mode switch,
then the follow path. -/
def handleRedirectHeap (resolve : String → URLRecord → URLRecord)
    (store : HeaderStore) (init : HInit) (response : FetchResponse) :
    HeaderStore × HOutcome :=
  let mode := init.redirect.getD "follow"
  if mode = "error" then (store, .failure (.redirectNotAllowed response.url.href))
  else if mode = "manual" then (store, .terminal response)
  else if mode = "follow" then handleRedirectHeapFollow resolve store init response
  else (store, .failure (.invalidOption mode))

/-!
Concrete fixtures used by witnesses and counterexamples: small transports,
resolvers, jars, requests and responses on which the definitions evaluate.
-/

/-- A self-redirecting host used to exercise the redirect ceiling. -/
def chainUrl : URLRecord := { hostname := "example.com", href := "https://example.com/" }

/-- A `301` response that always points one hop further. -/
def chainResponse : FetchResponse :=
  { url := chainUrl, status := 301, location := some "/next" }

/-- A transport that answers every request with `chainResponse`. -/
def chainTransport : RequestInput → FetchInit → FetchResponse :=
  fun _ _ => chainResponse

/-- URL resolution for the self-redirecting chain. -/
def chainResolve : String → URLRecord → URLRecord := fun _ _ => chainUrl

/-- A jar that never stores anything and never supplies a cookie. -/
def unitJar : JarModel Unit :=
  { getCookieString := fun _ _ => "", setCookie := fun s _ _ => s }

/-- The request record at hop `c` of a chain limited to `N` redirects. -/
def chainInit (N : Nat) (c : Option Nat) : FetchInit :=
  { maxRedirect := some N, redirectCount := c }

/-- Resolver sending every location to `example.com`. -/
def w1resolve : String → URLRecord → URLRecord :=
  fun l _ => { hostname := "example.com", href := l }

/-- A record carrying cookie and authorization headers in a plain object. -/
def w1init : FetchInit :=
  { headers := .plainObj
      [("Cookie", "k=v"), ("authorization", "secret"), ("accept", "text")] }

/-- A `307` from `a.example.com` to the parent domain `example.com`. -/
def w1response : FetchResponse :=
  { url := { hostname := "a.example.com", href := "https://a.example.com/" },
    status := 307, location := some "https://example.com/x" }

/-- The resolved target of `w1response`. -/
def w1target : URLRecord :=
  { hostname := "example.com", href := "https://example.com/x" }

/-- The record handed to the next hop after `w1response` is followed. -/
def w1next : FetchInit :=
  { redirectCount := some 1, headers := .plainObj [("accept", "text")] }

/-- Resolver keeping the original hostname. -/
def w3resolve : String → URLRecord → URLRecord :=
  fun l u => { hostname := u.hostname, href := l }

/-- A `POST` record with a buffered body and a `Content-Length` header. -/
def w3init : FetchInit :=
  { method := some "POST", body := .buffered "payload",
    headers := .plainObj [("content-length", "7"), ("cookie", "k=v")] }

/-- A `303` same-host response. -/
def w3response : FetchResponse :=
  { url := { hostname := "example.com", href := "https://example.com/form" },
    status := 303, location := some "/done" }

/-- The resolved target of `w3response`. -/
def w3target : URLRecord := { hostname := "example.com", href := "/done" }

/-- The record handed to the next hop after `w3response` is followed. -/
def w3next : FetchInit :=
  { redirectCount := some 1, method := some "GET", body := .nullBody,
    headers := .plainObj [("cookie", "k=v")] }

/-- Resolver keeping the original hostname. -/
def w10resolve : String → URLRecord → URLRecord :=
  fun l u => { hostname := u.hostname, href := l }

/-- A record whose method is the lower-case string `post`. -/
def w10init : FetchInit :=
  { method := some "post", body := .buffered "data",
    headers := .plainObj [("content-length", "4")] }

/-- A `301` same-host response. -/
def w10response : FetchResponse :=
  { url := { hostname := "example.com", href := "https://example.com/a" },
    status := 301, location := some "/b" }

/-- The resolved target of `w10response`. -/
def w10target : URLRecord := { hostname := "example.com", href := "/b" }

/-- The record handed to the next hop after `w10response` is followed. -/
def w10next : FetchInit :=
  { redirectCount := some 1, method := some "post", body := .buffered "data",
    headers := .plainObj [("content-length", "4")] }

/-- Resolver sending every location to `example.com`. -/
def w6resolve : String → URLRecord → URLRecord :=
  fun l _ => { hostname := "example.com", href := l }

/-- A `302` response used to exercise the mode switch. -/
def w6response : FetchResponse :=
  { url := { hostname := "example.com", href := "https://example.com/" },
    status := 302, location := some "/next" }

/-- Record with redirect mode `error`. -/
def w6initError : FetchInit := { redirect := some "error" }

/-- Record with redirect mode `manual`. -/
def w6initManual : FetchInit := { redirect := some "manual" }

/-- Record with redirect mode `follow`. -/
def w6initFollow : FetchInit := { redirect := some "follow" }

/-- Record with an unrecognized redirect mode. -/
def w6initBogus : FetchInit := { redirect := some "weird" }

/-- Resolver sending every location to `example.com`. -/
def w5resolve : String → URLRecord → URLRecord :=
  fun l _ => { hostname := "example.com", href := l }

/-- A record whose body is a Node.js readable stream. -/
def w5init : FetchInit := { body := .nodeStream }

/-- A `301` same-host response. -/
def w5response : FetchResponse :=
  { url := { hostname := "example.com", href := "https://example.com/" },
    status := 301, location := some "/next" }

/-- Resolver sending every location to `example.com`. -/
def c4resolve : String → URLRecord → URLRecord :=
  fun l _ => { hostname := "example.com", href := l }

/-- A `307` response whose `Referrer-Policy` value ends in a comma, so its
token split carries a trailing empty token. -/
def c4response : FetchResponse :=
  { url := { hostname := "example.com", href := "https://example.com/" },
    status := 307, location := some "https://example.com/next",
    referrerPolicyHeader := some "unsafe-url," }

/-- The resolved target of `c4response`. -/
def c4target : URLRecord :=
  { hostname := "example.com", href := "https://example.com/next" }

/-- The record handed to the next hop after `c4response` is followed. -/
def c4next : FetchInit :=
  { redirectCount := some 1, referrerPolicy := some "unsafe-url" }

/-- A jar that never stores anything and never supplies a cookie. -/
def w7jar : JarModel Unit :=
  { getCookieString := fun _ _ => "", setCookie := fun s _ _ => s }

/-- The URL of the terminal request. -/
def w7url : URLRecord := { hostname := "example.com", href := "https://example.com/" }

/-- A `200` response that carries a `Location` header anyway. -/
def w7response : FetchResponse :=
  { url := w7url, status := 200, location := some "/ignored" }

/-- A transport that answers every request with `w7response`. -/
def w7transport : RequestInput → FetchInit → FetchResponse :=
  fun _ _ => w7response

/-- Resolver sending every location to `example.com`. -/
def w7resolve : String → URLRecord → URLRecord :=
  fun l _ => { hostname := "example.com", href := l }

/-- A heap with one headers object, holding cookie and authorization. -/
def c8store : HeaderStore :=
  [[("cookie", "a"), ("authorization", "b"), ("accept", "c")]]

/-- A record pointing at the headers object at address `0`. -/
def c8init : HInit := { headersRef := some 0 }

/-- Resolver sending every location to the unrelated host `evil.example`. -/
def c8resolve : String → URLRecord → URLRecord :=
  fun l _ => { hostname := "evil.example", href := l }

/-- A `307` from `a.example.com` to the unrelated host `evil.example`. -/
def c8response : FetchResponse :=
  { url := { hostname := "a.example.com", href := "https://a.example.com/" },
    status := 307, location := some "https://evil.example/" }

/-- The resolved target of `c8response`. -/
def c8target : URLRecord :=
  { hostname := "evil.example", href := "https://evil.example/" }

/-- The record handed to the next hop after `c8response` is followed. -/
def c8next : HInit := { headersRef := some 0, redirectCount := some 1 }

/-- A request URL for cookie injection. -/
def w9url : URLRecord := { hostname := "example.com", href := "https://example.com/" }

/-- A record whose plain-object headers already hold a `cookie` key. -/
def w9init : FetchInit :=
  { headers := .plainObj [("cookie", "old"), ("x-a", "1")] }

/-- The entry list produced by merging `id=1` into `w9init`'s headers. -/
def w9merged : List (String × String) :=
  objSet [("cookie", "old"), ("x-a", "1")] "cookie" "id=1"

/-! Supporting lemmas. -/

/-- A fold that keeps the last element satisfying `p` computes the last
element of the filtered list. -/
lemma foldl_keep_last (p : String → Bool) (l : List String) (a : String) :
    l.foldl (fun acc t => if p t then t else acc) a
      = (l.filter p).getLastD a := by
  induction l generalizing a with
  | nil => rfl
  | cons x xs ih =>
    simp only [List.foldl_cons]
    rw [ih, List.filter_cons]
    by_cases hx : p x = true
    · rw [if_pos hx, if_pos hx, List.getLastD_cons]
    · rw [if_neg hx, if_neg hx]

/-- Filtering with `q` after filtering with a predicate that excludes
everything `q` accepts yields the empty list. -/
lemma filter_filter_excl {α : Type} (p q : α → Bool) (l : List α)
    (h : ∀ a, q a = true → p a = false) :
    (l.filter p).filter q = [] := by
  induction l with
  | nil => rfl
  | cons x xs ih =>
    by_cases hq : q x = true
    · simp [List.filter_cons, h x hq, ih]
    · by_cases hp : p x = true <;>
        simp [List.filter_cons, hp, hq, ih]

/-- Filtering with `q` after filtering with a predicate that accepts
everything `q` accepts is filtering with `q` alone. -/
lemma filter_filter_incl {α : Type} (p q : α → Bool) (l : List α)
    (h : ∀ a, q a = true → p a = true) :
    (l.filter p).filter q = l.filter q := by
  induction l with
  | nil => rfl
  | cons x xs ih =>
    by_cases hq : q x = true
    · simp [List.filter_cons, h x hq, hq, ih]
    · by_cases hp : p x = true <;>
        simp [List.filter_cons, hp, hq, ih]

/-- Deleting a (lower-case) header name empties that name's values. -/
lemma headerValues_delete_self (h : HeadersVal) (n : String)
    (hn : strToLower n = n) :
    headerValues (headerDelete h n) n = [] := by
  cases h with
  | null => rfl
  | headersObj es =>
    simp only [headerDelete, headerValues, hn]
    rw [filter_filter_excl]
    · rfl
    · intro a ha
      simp only [beq_iff_eq] at ha
      simp [ha, hn]
  | plainObj es =>
    simp only [headerDelete, headerValues]
    rw [filter_filter_excl]
    · rfl
    · intro a ha
      simp only [beq_iff_eq] at ha
      simp [ha]

/-- Deleting one header name leaves the values of a different name
unchanged. -/
lemma headerValues_delete_ne (h : HeadersVal) (n m : String)
    (hn : strToLower n = n) (hnm : m ≠ n) :
    headerValues (headerDelete h n) m = headerValues h m := by
  cases h with
  | null => rfl
  | headersObj es =>
    simp only [headerDelete, headerValues, hn]
    rw [filter_filter_incl]
    intro a ha
    simp only [beq_iff_eq] at ha
    simp [ha, hnm]
  | plainObj es =>
    simp only [headerDelete, headerValues]
    rw [filter_filter_incl]
    intro a ha
    simp only [beq_iff_eq] at ha
    simp [ha, hnm]

/-- The cross-origin strip removes every sensitive header. -/
lemma headerValues_strip_sensitive (h : HeadersVal) (name : String)
    (hmem : name ∈ sensitiveHeaders) :
    headerValues (stripHeadersAll h) name = [] := by
  simp only [sensitiveHeaders, List.mem_cons, List.not_mem_nil, or_false] at hmem
  simp only [stripHeadersAll, sensitiveHeaders, List.foldl_cons, List.foldl_nil]
  rcases hmem with rfl | rfl | rfl | rfl
  · rw [headerValues_delete_ne _ _ _ (by decide) (by decide),
      headerValues_delete_ne _ _ _ (by decide) (by decide),
      headerValues_delete_ne _ _ _ (by decide) (by decide),
      headerValues_delete_self _ _ (by decide)]
  · rw [headerValues_delete_ne _ _ _ (by decide) (by decide),
      headerValues_delete_ne _ _ _ (by decide) (by decide),
      headerValues_delete_self _ _ (by decide)]
  · rw [headerValues_delete_ne _ _ _ (by decide) (by decide),
      headerValues_delete_self _ _ (by decide)]
  · rw [headerValues_delete_self _ _ (by decide)]

/-- The cross-origin strip leaves every non-sensitive header name
unchanged. -/
lemma headerValues_strip_other (h : HeadersVal) (name : String)
    (hmem : ¬ name ∈ sensitiveHeaders) :
    headerValues (stripHeadersAll h) name = headerValues h name := by
  simp only [sensitiveHeaders, List.mem_cons, List.not_mem_nil, or_false,
    not_or] at hmem
  obtain ⟨h1, h2, h3, h4⟩ := hmem
  simp only [stripHeadersAll, sensitiveHeaders, List.foldl_cons, List.foldl_nil]
  rw [headerValues_delete_ne _ _ _ (by decide) h4,
    headerValues_delete_ne _ _ _ (by decide) h3,
    headerValues_delete_ne _ _ _ (by decide) h2,
    headerValues_delete_ne _ _ _ (by decide) h1]

/-- Deleting a (lower-case) header name makes it absent. -/
lemma hasHeader_delete_self (h : HeadersVal) (n : String)
    (hn : strToLower n = n) :
    hasHeader (headerDelete h n) n = false := by
  rw [hasHeader, headerValues_delete_self _ _ hn]
  rfl

/-- Deleting one header name does not affect the presence of another. -/
lemma hasHeader_delete_ne (h : HeadersVal) (n m : String)
    (hn : strToLower n = n) (hnm : m ≠ n) :
    hasHeader (headerDelete h n) m = hasHeader h m := by
  rw [hasHeader, headerValues_delete_ne _ _ _ hn hnm, hasHeader]

/-- The cross-origin strip makes every sensitive header absent. -/
lemma hasHeader_strip_sensitive (h : HeadersVal) (name : String)
    (hmem : name ∈ sensitiveHeaders) :
    hasHeader (stripHeadersAll h) name = false := by
  rw [hasHeader, headerValues_strip_sensitive _ _ hmem]
  rfl

/-- Cookie injection never touches the redirect bookkeeping fields of the
record. -/
lemma addCookiesToRequest_preserves (input : RequestInput) (init : FetchInit)
    (cookie : String) :
    (addCookiesToRequest input init cookie).2.redirectCount = init.redirectCount
      ∧ (addCookiesToRequest input init cookie).2.redirect = init.redirect
      ∧ (addCookiesToRequest input init cookie).2.maxRedirect = init.maxRedirect := by
  unfold addCookiesToRequest
  split
  · exact ⟨rfl, rfl, rfl⟩
  · split <;> split <;> try split
    all_goals exact ⟨rfl, rfl, rfl⟩

/-- An in-place header deletion only changes the referenced heap cell. -/
lemma storeDelete_getElem_ne (store : HeaderStore) (ref : Option Nat)
    (name : String) (a : Nat) (h : ref ≠ some a) :
    (storeDelete store ref name)[a]? = store[a]? := by
  cases ref with
  | none => rfl
  | some b =>
    have hba : b ≠ a := fun he => h (by rw [he])
    exact List.getElem?_set_ne hba

/-- Looking up the replaced key in the object-spread update map. -/
lemma objGet_map_replace (es : List (String × String)) (key v : String) :
    objGet (es.map (fun kv => if kv.1 == key then (key, v) else kv)) key
      = if es.any (fun kv => kv.1 == key) then some v else none := by
  induction es with
  | nil => rfl
  | cons kv t ih =>
    by_cases hk : (kv.1 == key) = true
    · simp only [List.map_cons, if_pos hk, List.any_cons, hk, Bool.true_or,
        if_true, objGet]
      rw [List.find?_cons_of_pos _ (by simp)]
      rfl
    · simp only [List.map_cons, if_neg hk, List.any_cons, hk, Bool.false_or, objGet]
      rw [List.find?_cons_of_neg _ (by simpa using hk)]
      exact ih

/-- The object-spread update map does not disturb lookups of other keys. -/
lemma find?_map_replace (es : List (String × String)) (key v k : String)
    (hk : k ≠ key) :
    (es.map (fun kv => if kv.1 == key then (key, v) else kv)).find?
        (fun kv => kv.1 == k)
      = es.find? (fun kv => kv.1 == k) := by
  have hk' : (key == k) = false := by
    simpa using Ne.symm hk
  induction es with
  | nil => rfl
  | cons kv t ih =>
    by_cases hkv : (kv.1 == key) = true
    · have hkveq : kv.1 = key := by simpa using hkv
      have hkvk : (kv.1 == k) = false := by rw [hkveq]; exact hk'
      simp only [List.map_cons, if_pos hkv]
      rw [List.find?_cons_of_neg _ (by simp [hk']),
        List.find?_cons_of_neg _ (by simp [hkvk])]
      exact ih
    · simp only [List.map_cons, if_neg hkv]
      by_cases hkvk : (kv.1 == k) = true
      · have h1 : List.find? (fun x => x.1 == k)
            (kv :: List.map (fun x => if (x.1 == key) = true then (key, v) else x) t)
              = some kv := List.find?_cons_of_pos _ hkvk
        have h2 : List.find? (fun x => x.1 == k) (kv :: t) = some kv :=
          List.find?_cons_of_pos _ hkvk
        rw [h1, h2]
      · rw [List.find?_cons_of_neg _ (by simpa using hkvk),
          List.find?_cons_of_neg _ (by simpa using hkvk)]
        exact ih

/-- The merge `{...es, key: value}` binds `key` to `value`. -/
lemma objGet_objSet_self (es : List (String × String)) (key v : String) :
    objGet (objSet es key v) key = some v := by
  unfold objSet
  split
  · rename_i hany
    rw [objGet_map_replace, if_pos hany]
  · rename_i hany
    unfold objGet
    rw [List.find?_append]
    have hnone : es.find? (fun kv => kv.1 == key) = none := by
      rw [List.find?_eq_none]
      intro x hx hxk
      exact hany (List.any_eq_true.mpr ⟨x, hx, hxk⟩)
    rw [hnone, List.find?_cons_of_pos _ (by simp)]
    rfl

/-- The merge `{...es, key: value}` does not change the binding of any other key. -/
lemma objGet_objSet_ne (es : List (String × String)) (key v k : String)
    (hk : k ≠ key) :
    objGet (objSet es key v) k = objGet es k := by
  unfold objSet
  split
  · unfold objGet
    rw [find?_map_replace _ _ _ _ hk]
  · unfold objGet
    rw [List.find?_append,
      List.find?_cons_of_neg _ (by simpa using Ne.symm hk), List.find?_nil]
    cases es.find? (fun kv => kv.1 == k) <;> rfl

/-- Closed form of the follow path when a `Location` header is present:
either the ceiling failure, or the unreplayable-body failure, or the
recursive hop carrying the fully rewritten record. -/
lemma handleRedirectFollow_eq (resolve : String → URLRecord → URLRecord)
    (init : FetchInit) (response : FetchResponse) (l : String)
    (hloc : response.location = some l) :
    handleRedirectFollow resolve init response =
      (if init.maxRedirect.getD 20 ≤ init.redirectCount.getD 0 then
        .failure (.redirectLimitExceeded (init.maxRedirect.getD 20) response.url.href)
      else if unreplayableCondition response.status init.body then
        .failure .unreplayableBody
      else
        .follow (resolve l response.url)
          { redirect := init.redirect
          , redirectCount := some (init.redirectCount.getD 0 + 1)
          , maxRedirect := init.maxRedirect
          , method :=
              if downgradeCondition response.status init.method then some "GET"
              else init.method
          , body :=
              if downgradeCondition response.status init.method then BodyVal.nullBody
              else init.body
          , headers :=
              if downgradeCondition response.status init.method then
                headerDelete
                  (if isDomainOrSubdomain response.url (resolve l response.url) then
                    init.headers
                  else stripHeadersAll init.headers) "content-length"
              else
                (if isDomainOrSubdomain response.url (resolve l response.url) then
                  init.headers
                else stripHeadersAll init.headers)
          , referrerPolicy :=
              match response.referrerPolicyHeader with
              | some v => some (parseReferrerPolicy v)
              | none => init.referrerPolicy }) := by
  by_cases hceil : init.maxRedirect.getD 20 ≤ init.redirectCount.getD 0
  · simp [handleRedirectFollow, hloc, hceil]
  · by_cases hcov : isDomainOrSubdomain response.url (resolve l response.url) = true
    · by_cases hbody : unreplayableCondition response.status init.body = true
      · simp [handleRedirectFollow, hloc, hceil, hcov, hbody]
      · by_cases hdg : downgradeCondition response.status init.method = true
        · rcases hrp : response.referrerPolicyHeader with _ | v <;>
            simp [handleRedirectFollow, hloc, hceil, hcov, hbody, hdg, hrp]
        · rcases hrp : response.referrerPolicyHeader with _ | v <;>
            simp [handleRedirectFollow, hloc, hceil, hcov, hbody, hdg, hrp]
    · by_cases hbody : unreplayableCondition response.status init.body = true
      · simp [handleRedirectFollow, hloc, hceil, hcov, hbody]
      · by_cases hdg : downgradeCondition response.status init.method = true
        · rcases hrp : response.referrerPolicyHeader with _ | v <;>
            simp [handleRedirectFollow, hloc, hceil, hcov, hbody, hdg, hrp]
        · rcases hrp : response.referrerPolicyHeader with _ | v <;>
            simp [handleRedirectFollow, hloc, hceil, hcov, hbody, hdg, hrp]

/-- The redirect-mode switch, case `undefined` (defaults to follow). -/
lemma handleRedirect_mode_none (resolve : String → URLRecord → URLRecord)
    (init : FetchInit) (response : FetchResponse)
    (hr : init.redirect = none) :
    handleRedirect resolve init response
      = handleRedirectFollow resolve init response := by
  simp [handleRedirect, hr]

/-- The redirect-mode switch, case `'follow'`. -/
lemma handleRedirect_mode_follow (resolve : String → URLRecord → URLRecord)
    (init : FetchInit) (response : FetchResponse)
    (hr : init.redirect = some "follow") :
    handleRedirect resolve init response
      = handleRedirectFollow resolve init response := by
  simp [handleRedirect, hr]

/-- The redirect-mode switch, case `'error'`. -/
lemma handleRedirect_mode_error (resolve : String → URLRecord → URLRecord)
    (init : FetchInit) (response : FetchResponse)
    (hr : init.redirect = some "error") :
    handleRedirect resolve init response
      = .failure (.redirectNotAllowed response.url.href) := by
  simp [handleRedirect, hr]

/-- The redirect-mode switch, case `'manual'`. -/
lemma handleRedirect_mode_manual (resolve : String → URLRecord → URLRecord)
    (init : FetchInit) (response : FetchResponse)
    (hr : init.redirect = some "manual") :
    handleRedirect resolve init response = .terminal response := by
  simp [handleRedirect, hr]

/-- The redirect-mode switch, default case. -/
lemma handleRedirect_mode_other (resolve : String → URLRecord → URLRecord)
    (init : FetchInit) (response : FetchResponse) (m : String)
    (hr : init.redirect = some m)
    (h1 : m ≠ "error") (h2 : m ≠ "manual") (h3 : m ≠ "follow") :
    handleRedirect resolve init response = .failure (.invalidOption m) := by
  simp [handleRedirect, hr, h1, h2, h3]

/-- A followed hop can only arise in mode `follow` (explicit or default),
and then comes from the follow path. -/
lemma handleRedirect_follow_mode (resolve : String → URLRecord → URLRecord)
    (init : FetchInit) (response : FetchResponse) (u : URLRecord)
    (init' : FetchInit)
    (h : handleRedirect resolve init response = .follow u init') :
    (init.redirect = none ∨ init.redirect = some "follow")
      ∧ handleRedirectFollow resolve init response = .follow u init' := by
  rcases hr : init.redirect with _ | m
  · exact ⟨Or.inl rfl, by rwa [handleRedirect_mode_none _ _ _ hr] at h⟩
  · by_cases h1 : m = "error"
    · subst h1; rw [handleRedirect_mode_error _ _ _ hr] at h; simp at h
    · by_cases h2 : m = "manual"
      · subst h2; rw [handleRedirect_mode_manual _ _ _ hr] at h; simp at h
      · by_cases h3 : m = "follow"
        · subst h3
          exact ⟨Or.inr rfl, by rwa [handleRedirect_mode_follow _ _ _ hr] at h⟩
        · rw [handleRedirect_mode_other _ _ _ m hr h1 h2 h3] at h; simp at h

/-- Complete characterization of the record carried by a followed hop. -/
lemma handleRedirectFollow_spec
    (resolve : String → URLRecord → URLRecord) (init : FetchInit)
    (response : FetchResponse) (u : URLRecord) (init' : FetchInit)
    (h : handleRedirectFollow resolve init response = .follow u init') :
    ∃ l, response.location = some l ∧ u = resolve l response.url
      ∧ init.redirectCount.getD 0 < init.maxRedirect.getD 20
      ∧ unreplayableCondition response.status init.body = false
      ∧ init'.redirect = init.redirect
      ∧ init'.redirectCount = some (init.redirectCount.getD 0 + 1)
      ∧ init'.maxRedirect = init.maxRedirect
      ∧ init'.method
          = (if downgradeCondition response.status init.method then some "GET"
             else init.method)
      ∧ init'.body
          = (if downgradeCondition response.status init.method then BodyVal.nullBody
             else init.body)
      ∧ init'.headers
          = (if downgradeCondition response.status init.method then
               headerDelete
                 (if isDomainOrSubdomain response.url u then init.headers
                  else stripHeadersAll init.headers) "content-length"
             else
               (if isDomainOrSubdomain response.url u then init.headers
                else stripHeadersAll init.headers))
      ∧ init'.referrerPolicy
          = (match response.referrerPolicyHeader with
             | some v => some (parseReferrerPolicy v)
             | none => init.referrerPolicy) := by
  rcases hloc : response.location with _ | l
  · simp [handleRedirectFollow, hloc] at h
  · rw [handleRedirectFollow_eq _ _ _ _ hloc] at h
    split at h
    · simp at h
    · split at h
      · simp at h
      · rename_i hceil hbody
        rw [RedirectOutcome.follow.injEq] at h
        obtain ⟨hu, hinit⟩ := h
        subst hu
        subst hinit
        exact ⟨l, rfl, rfl, by omega, by simpa using hbody,
          rfl, rfl, rfl, rfl, rfl, rfl, rfl⟩

/-- Closed form of the heap-level follow path when a `Location` header is
present. -/
lemma handleRedirectHeapFollow_eq (resolve : String → URLRecord → URLRecord)
    (store : HeaderStore) (init : HInit) (response : FetchResponse) (l : String)
    (hloc : response.location = some l) :
    handleRedirectHeapFollow resolve store init response =
      (if init.maxRedirect.getD 20 ≤ init.redirectCount.getD 0 then
        (store, .failure (.redirectLimitExceeded (init.maxRedirect.getD 20)
          response.url.href))
      else
        let store1 :=
          if isDomainOrSubdomain response.url (resolve l response.url) then store
          else storeDelete (storeDelete (storeDelete (storeDelete store
            init.headersRef "authorization") init.headersRef "www-authenticate")
            init.headersRef "cookie") init.headersRef "cookie2"
        if unreplayableCondition response.status init.body then
          (store1, .failure .unreplayableBody)
        else
          ((if downgradeCondition response.status init.method then
              storeDelete store1 init.headersRef "content-length"
            else store1),
           .follow (resolve l response.url)
             { redirect := init.redirect
             , redirectCount := some (init.redirectCount.getD 0 + 1)
             , maxRedirect := init.maxRedirect
             , method :=
                 if downgradeCondition response.status init.method then some "GET"
                 else init.method
             , body :=
                 if downgradeCondition response.status init.method then
                   BodyVal.nullBody
                 else init.body
             , headersRef := init.headersRef
             , referrerPolicy :=
                 match response.referrerPolicyHeader with
                 | some v => some (parseReferrerPolicy v)
                 | none => init.referrerPolicy })) := by
  by_cases hceil : init.maxRedirect.getD 20 ≤ init.redirectCount.getD 0
  · simp [handleRedirectHeapFollow, hloc, hceil]
  · by_cases hcov : isDomainOrSubdomain response.url (resolve l response.url) = true
    · by_cases hbody : unreplayableCondition response.status init.body = true
      · simp [handleRedirectHeapFollow, hloc, hceil, hcov, hbody]
      · by_cases hdg : downgradeCondition response.status init.method = true
        · rcases hrp : response.referrerPolicyHeader with _ | v <;>
            simp [handleRedirectHeapFollow, hloc, hceil, hcov, hbody, hdg, hrp]
        · rcases hrp : response.referrerPolicyHeader with _ | v <;>
            simp [handleRedirectHeapFollow, hloc, hceil, hcov, hbody, hdg, hrp]
    · by_cases hbody : unreplayableCondition response.status init.body = true
      · simp [handleRedirectHeapFollow, hloc, hceil, hcov, hbody, sensitiveHeaders]
      · by_cases hdg : downgradeCondition response.status init.method = true
        · rcases hrp : response.referrerPolicyHeader with _ | v <;>
            simp [handleRedirectHeapFollow, hloc, hceil, hcov, hbody, hdg, hrp,
              sensitiveHeaders]
        · rcases hrp : response.referrerPolicyHeader with _ | v <;>
            simp [handleRedirectHeapFollow, hloc, hceil, hcov, hbody, hdg, hrp,
              sensitiveHeaders]

/-- A followed heap-level hop can only arise in mode `follow` (explicit or
default), and then comes from the follow path. -/
lemma handleRedirectHeap_follow_mode (resolve : String → URLRecord → URLRecord)
    (store : HeaderStore) (init : HInit) (response : FetchResponse)
    (store' : HeaderStore) (u : URLRecord) (init' : HInit)
    (h : handleRedirectHeap resolve store init response = (store', .follow u init')) :
    (init.redirect = none ∨ init.redirect = some "follow")
      ∧ handleRedirectHeapFollow resolve store init response
          = (store', .follow u init') := by
  rcases hr : init.redirect with _ | m
  · refine ⟨Or.inl rfl, ?_⟩
    rw [← h]
    simp [handleRedirectHeap, hr]
  · by_cases h1 : m = "error"
    · subst h1
      rw [show handleRedirectHeap resolve store init response
          = (store, .failure (.redirectNotAllowed response.url.href)) by
        simp [handleRedirectHeap, hr]] at h
      simp at h
    · by_cases h2 : m = "manual"
      · subst h2
        rw [show handleRedirectHeap resolve store init response
            = (store, .terminal response) by simp [handleRedirectHeap, hr]] at h
        simp at h
      · by_cases h3 : m = "follow"
        · subst h3
          refine ⟨Or.inr rfl, ?_⟩
          rw [← h]
          simp [handleRedirectHeap, hr]
        · rw [show handleRedirectHeap resolve store init response
              = (store, .failure (.invalidOption m)) by
            simp [handleRedirectHeap, hr, h1, h2, h3]] at h
          simp at h

/-- Injecting the empty cookie string is a no-op. -/
lemma addCookiesToRequest_empty (input : RequestInput) (init : FetchInit) :
    addCookiesToRequest input init "" = (input, init) := by
  simp [addCookiesToRequest]

/-- One application of `handleRedirect` along the self-redirecting chain. -/
lemma chain_handleRedirect (N : Nat) (c : Option Nat) (resp : FetchResponse)
    (h1 : resp.url = chainUrl) (h2 : resp.status = 301)
    (h3 : resp.location = some "/next")
    (h4 : resp.referrerPolicyHeader = none) :
    handleRedirect chainResolve (chainInit N c) resp
      = if N ≤ c.getD 0 then
          .failure (.redirectLimitExceeded N chainUrl.href)
        else .follow chainUrl (chainInit N (some (c.getD 0 + 1))) := by
  rw [handleRedirect_mode_none _ _ _ rfl, handleRedirectFollow_eq _ _ _ _ h3,
    h1, h2, h4]
  rw [show chainResolve "/next" chainUrl = chainUrl from rfl,
    show isDomainOrSubdomain chainUrl chainUrl = true by decide]
  split
  · rename_i hle
    rw [if_pos (by simpa [chainInit] using hle)]
    rfl
  · rename_i hle
    rw [if_neg (show ¬ N ≤ c.getD 0 by simpa [chainInit] using hle)]
    rfl

/-- One hop of the wrapper along the self-redirecting chain: either the
ceiling failure or one recursive step with the count incremented. -/
lemma chain_hop (N : Nat) (c : Option Nat) (fuel : Nat) :
    fetchCookieWrapper unitJar chainTransport chainResolve (fuel + 1) ()
        (.urlInput chainUrl) (some (chainInit N c))
      = if N ≤ c.getD 0 then
          some (.error (.redirectLimitExceeded N chainUrl.href))
        else
          fetchCookieWrapper unitJar chainTransport chainResolve fuel ()
            (.urlInput chainUrl) (some (chainInit N (some (c.getD 0 + 1)))) := by
  simp only [fetchCookieWrapper, Option.getD_some, requestInputUrl]
  rw [show unitJar.getCookieString () chainUrl.href = "" from rfl]
  rw [addCookiesToRequest_empty]
  rw [show chainTransport (.urlInput chainUrl)
      { chainInit N c with redirect := some "manual" } = chainResponse from rfl]
  have hcount : ({ chainInit N c with redirect := some "manual" }
      : FetchInit).redirectCount = c := rfl
  rw [hcount]
  have hred : ∀ r : FetchResponse, r = chainResponse ∨
      r = { chainResponse with redirected := true } →
      handleRedirect chainResolve (chainInit N c) r
        = if N ≤ c.getD 0 then
            .failure (.redirectLimitExceeded N chainUrl.href)
          else .follow chainUrl (chainInit N (some (c.getD 0 + 1))) := by
    intro r hr
    rcases hr with rfl | rfl <;>
      exact chain_handleRedirect N c _ rfl rfl rfl rfl
  by_cases hc : 0 < c.getD 0
  · rw [if_pos hc]
    rw [hred _ (Or.inr rfl)]
    by_cases hN : N ≤ c.getD 0
    · rw [if_pos hN, if_pos hN]
      rfl
    · rw [if_neg hN, if_neg hN]
      rfl
  · rw [if_neg hc]
    rw [hred _ (Or.inl rfl)]
    by_cases hN : N ≤ c.getD 0
    · rw [if_pos hN, if_pos hN]
      rfl
    · rw [if_neg hN, if_neg hN]
      rfl

/-- Following the chain with `d` hops of headroom ends in the ceiling
failure. -/
lemma chain_aux (d : Nat) : ∀ (k fuel N : Nat), k + d = N →
    fetchCookieWrapper unitJar chainTransport chainResolve (d + fuel + 1) ()
        (.urlInput chainUrl) (some (chainInit N (some k)))
      = some (.error (.redirectLimitExceeded N chainUrl.href)) := by
  induction d with
  | zero =>
    intro k fuel N hk
    rw [show (0 : Nat) + fuel + 1 = fuel + 1 by omega, chain_hop]
    rw [if_pos (by simp; omega)]
  | succ d ih =>
    intro k fuel N hk
    rw [show d + 1 + fuel + 1 = (d + fuel + 1) + 1 by omega, chain_hop]
    rw [if_neg (by simp; omega)]
    simp only [Option.getD_some]
    exact ih (k + 1) fuel N (by omega)

/-!
Claim theorems.
-/

/-- C1: on every followed redirect hop, each of the sensitive headers
`authorization`, `www-authenticate`, `cookie` and `cookie2` is present on
the next hop's record exactly when the redirect target is covered by the
request URL — the target hostname equals the request hostname or ends with
`"."` followed by the request hostname — and the header was present before.
A non-covered target (unrelated host or parent domain) strips all four; a
covered target (same host or subdomain) preserves them. -/
theorem sensitive_header_stripping
    (resolve : String → URLRecord → URLRecord) (init : FetchInit)
    (response : FetchResponse) (u : URLRecord) (init' : FetchInit)
    (h : handleRedirect resolve init response = .follow u init') :
    (isDomainOrSubdomain response.url u
        = (u.hostname == response.url.hostname
            || strEndsWith u.hostname ("." ++ response.url.hostname)))
    ∧ ∀ name ∈ sensitiveHeaders,
        hasHeader init'.headers name
          = (isDomainOrSubdomain response.url u && hasHeader init.headers name) := by
  obtain ⟨-, hf⟩ := handleRedirect_follow_mode _ _ _ _ _ h
  obtain ⟨l, hloc, hu, hceil, hnb, hred, hcount, hmax, hmeth, hbody, hheaders, hrp⟩ :=
    handleRedirectFollow_spec _ _ _ _ _ hf
  refine ⟨rfl, ?_⟩
  intro name hname
  have hncl : name ≠ "content-length" := by
    rcases (by simpa [sensitiveHeaders] using hname : _) with rfl | rfl | rfl | rfl <;>
      decide
  have hval : hasHeader init'.headers name
      = hasHeader (if isDomainOrSubdomain response.url u then init.headers
          else stripHeadersAll init.headers) name := by
    rw [hheaders]
    split
    · exact hasHeader_delete_ne _ _ _ (by decide) hncl
    · rfl
  rw [hval]
  by_cases hcov : isDomainOrSubdomain response.url u = true
  · rw [if_pos hcov, hcov, Bool.true_and]
  · rw [if_neg hcov, hasHeader_strip_sensitive _ _ hname,
      (show isDomainOrSubdomain response.url u = false by simpa using hcov),
      Bool.false_and]

/-- C1 witness: a `307` hop from `a.example.com` to the parent domain
`example.com` strips the sensitive headers. -/
theorem sensitive_header_stripping_witness :
    (isDomainOrSubdomain w1response.url w1target
        = (w1target.hostname == w1response.url.hostname
            || strEndsWith w1target.hostname ("." ++ w1response.url.hostname)))
    ∧ ∀ name ∈ sensitiveHeaders,
        hasHeader w1next.headers name
          = (isDomainOrSubdomain w1response.url w1target
              && hasHeader w1init.headers name) :=
  sensitive_header_stripping w1resolve w1init w1response w1target w1next
    (by decide)

/-- C2: the redirect ceiling.  A followed hop always increments the
redirect count by exactly one and preserves `maxRedirect`, and is only
possible below the ceiling; at the ceiling (`redirectCount >= maxRedirect`)
the hop fails with the redirect-limit error carrying the limit and the
request URL; and along a transport that always redirects, a call with
`maxRedirect = N` follows exactly `N` hops and fails on observing the
`(N+1)`-th redirect response. -/
theorem redirect_limit_enforced :
    (∀ (resolve : String → URLRecord → URLRecord) (init : FetchInit)
        (response : FetchResponse) (u : URLRecord) (init' : FetchInit),
        handleRedirect resolve init response = .follow u init' →
        init'.redirectCount = some (init.redirectCount.getD 0 + 1)
          ∧ init'.maxRedirect = init.maxRedirect
          ∧ init.redirectCount.getD 0 < init.maxRedirect.getD 20)
    ∧ (∀ (resolve : String → URLRecord → URLRecord) (init : FetchInit)
        (response : FetchResponse) (l : String),
        (init.redirect = none ∨ init.redirect = some "follow") →
        response.location = some l →
        init.maxRedirect.getD 20 ≤ init.redirectCount.getD 0 →
        handleRedirect resolve init response
          = .failure (.redirectLimitExceeded (init.maxRedirect.getD 20)
              response.url.href))
    ∧ (∀ N : Nat,
        fetchCookieWrapper unitJar chainTransport chainResolve (N + 2) ()
            (.urlInput chainUrl) (some { maxRedirect := some N })
          = some (.error (.redirectLimitExceeded N chainUrl.href))) := by
  refine ⟨?_, ?_, ?_⟩
  · intro resolve init response u init' h
    obtain ⟨-, hf⟩ := handleRedirect_follow_mode _ _ _ _ _ h
    obtain ⟨l, hloc, hu, hceil, hnb, hred, hcount, hmax, hmeth, hbody, hheaders, hrp⟩ :=
      handleRedirectFollow_spec _ _ _ _ _ hf
    exact ⟨hcount, hmax, hceil⟩
  · intro resolve init response l hmode hloc hceil
    have hm : handleRedirect resolve init response
        = handleRedirectFollow resolve init response := by
      rcases hmode with hm | hm
      · exact handleRedirect_mode_none _ _ _ hm
      · exact handleRedirect_mode_follow _ _ _ hm
    rw [hm, handleRedirectFollow_eq _ _ _ _ hloc, if_pos hceil]
  · intro N
    have hinit : ({ maxRedirect := some N } : FetchInit) = chainInit N none := rfl
    rw [hinit]
    by_cases hN : N = 0
    · subst hN
      rw [show (0 : Nat) + 2 = 1 + 1 from rfl, chain_hop]
      rw [if_pos (by simp)]
    · rw [show N + 2 = (N + 1) + 1 from rfl, chain_hop]
      rw [if_neg (by simp; omega)]
      simp only [Option.getD_none]
      rw [show N + 1 = (N - 1) + 1 + 1 by omega]
      exact chain_aux (N - 1) 1 1 N (by omega)

/-- C2 witness: one hop increments `0` to `1` with `maxRedirect` kept;
a hop with count `7` against limit `5` fails with the limit error; and a
chain limited to one redirect fails on the second redirect response. -/
theorem redirect_limit_enforced_witness :
    (chainInit 5 (some 1)).redirectCount
        = some ((chainInit 5 (some 0)).redirectCount.getD 0 + 1)
    ∧ (chainInit 5 (some 1)).maxRedirect = (chainInit 5 (some 0)).maxRedirect
    ∧ handleRedirect chainResolve (chainInit 5 (some 7)) chainResponse
        = .failure (.redirectLimitExceeded
            ((chainInit 5 (some 7)).maxRedirect.getD 20) chainResponse.url.href)
    ∧ fetchCookieWrapper unitJar chainTransport chainResolve 3 ()
        (.urlInput chainUrl) (some { maxRedirect := some 1 })
      = some (.error (.redirectLimitExceeded 1 chainUrl.href)) :=
  ⟨(redirect_limit_enforced.1 chainResolve (chainInit 5 (some 0)) chainResponse
      chainUrl (chainInit 5 (some 1)) (by decide)).1,
   (redirect_limit_enforced.1 chainResolve (chainInit 5 (some 0)) chainResponse
      chainUrl (chainInit 5 (some 1)) (by decide)).2.1,
   redirect_limit_enforced.2.1 chainResolve (chainInit 5 (some 7)) chainResponse
     "/next" (Or.inl rfl) rfl (by decide),
   redirect_limit_enforced.2.2 1⟩

/-- C3: on every followed hop, the method is set to `GET`, the body cleared
and the `Content-Length` header deleted exactly when the downgrade
condition holds — status `303`, or status `301`/`302` with method `POST` —
and otherwise method, body and `Content-Length` are forwarded unchanged;
`307`/`308` never downgrade, regardless of method. -/
theorem method_body_downgrade
    (resolve : String → URLRecord → URLRecord) (init : FetchInit)
    (response : FetchResponse) (u : URLRecord) (init' : FetchInit)
    (h : handleRedirect resolve init response = .follow u init') :
    (downgradeCondition response.status init.method
        = (response.status == 303
            || ((response.status == 301 || response.status == 302)
                && init.method == some "POST")))
    ∧ (downgradeCondition response.status init.method = true →
        init'.method = some "GET" ∧ init'.body = BodyVal.nullBody
          ∧ hasHeader init'.headers "content-length" = false)
    ∧ (downgradeCondition response.status init.method = false →
        init'.method = init.method ∧ init'.body = init.body
          ∧ headerValues init'.headers "content-length"
              = headerValues init.headers "content-length")
    ∧ ((response.status = 307 ∨ response.status = 308) →
        init'.method = init.method ∧ init'.body = init.body) := by
  obtain ⟨-, hf⟩ := handleRedirect_follow_mode _ _ _ _ _ h
  obtain ⟨l, hloc, hu, hceil, hnb, hred, hcount, hmax, hmeth, hbody, hheaders, hrp⟩ :=
    handleRedirectFollow_spec _ _ _ _ _ hf
  refine ⟨rfl, ?_, ?_, ?_⟩
  · intro hdg
    refine ⟨by rw [hmeth, if_pos hdg], by rw [hbody, if_pos hdg], ?_⟩
    rw [hheaders, if_pos hdg, hasHeader_delete_self _ _ (by decide)]
  · intro hdg
    have hdg' : ¬ downgradeCondition response.status init.method = true := by
      simp [hdg]
    refine ⟨by rw [hmeth, if_neg hdg'], by rw [hbody, if_neg hdg'], ?_⟩
    rw [hheaders, if_neg hdg']
    split
    · rfl
    · exact headerValues_strip_other _ _ (by decide)
  · intro hst
    have hdg' : ¬ downgradeCondition response.status init.method = true := by
      rcases hst with h7 | h8
      · simp [downgradeCondition, h7]
      · simp [downgradeCondition, h8]
    exact ⟨by rw [hmeth, if_neg hdg'], by rw [hbody, if_neg hdg']⟩

/-- C3 witness: a `303` answer to a `POST` with a body downgrades the next
hop to a body-less `GET` without `Content-Length`. -/
theorem method_body_downgrade_witness :
    downgradeCondition w3response.status w3init.method = true
    ∧ w3next.method = some "GET" ∧ w3next.body = BodyVal.nullBody
    ∧ hasHeader w3next.headers "content-length" = false :=
  ⟨by decide,
   (method_body_downgrade w3resolve w3init w3response w3target w3next
      (by decide)).2.1 (by decide)⟩

/-- C4 counterexample: the claim reads the referrer-policy parse as taking
the last token that is a member of the fixed set — a set that contains the
empty string.  On the header value `"unsafe-url,"` the JavaScript split
produces a trailing empty token, so that reading yields `""`, while the
code skips empty tokens and the followed hop carries `unsafe-url`. -/
theorem referrer_policy_spec_mismatch :
    handleRedirect c4resolve {} c4response = .follow c4target c4next
    ∧ parseReferrerPolicy "unsafe-url," = "unsafe-url"
    ∧ specLastPolicyToken "unsafe-url," = ""
    ∧ c4next.referrerPolicy ≠ some (specLastPolicyToken "unsafe-url,") :=
  ⟨by decide, by decide, by decide, by decide⟩

/-- C4 (amended): the new record's referrer-policy is the last *non-empty*
token of the split header value that is a member of the fixed policy set,
with unrecognized and empty tokens ignored and result `""` when no such
token exists; on every followed hop carrying a `Referrer-Policy` header the
next record's referrer-policy is exactly this parse of the header value. -/
theorem referrer_policy_parse_amended :
    (∀ s : String, parseReferrerPolicy s
        = ((jsSplitTokens s).filter
            (fun t => t != "" && referrerPolicySet.contains t)).getLastD "")
    ∧ (∀ (resolve : String → URLRecord → URLRecord) (init : FetchInit)
        (response : FetchResponse) (u : URLRecord) (init' : FetchInit)
        (v : String),
        response.referrerPolicyHeader = some v →
        handleRedirect resolve init response = .follow u init' →
        init'.referrerPolicy = some (parseReferrerPolicy v)) := by
  constructor
  · intro s
    exact foldl_keep_last (fun t => t != "" && referrerPolicySet.contains t)
      (jsSplitTokens s) ""
  · intro resolve init response u init' v hv h
    obtain ⟨-, hf⟩ := handleRedirect_follow_mode _ _ _ _ _ h
    obtain ⟨l, hloc, hu, hceil, hnb, hred, hcount, hmax, hmeth, hbody, hheaders, hrp⟩ :=
      handleRedirectFollow_spec _ _ _ _ _ hf
    rw [hrp, hv]

/-- C4 witness: the amended parse on a value with an unrecognized token and
a trailing comma, and the propagation on the `c4response` hop. -/
theorem referrer_policy_parse_amended_witness :
    parseReferrerPolicy "no-referrer, bogus, unsafe-url,"
        = ((jsSplitTokens "no-referrer, bogus, unsafe-url,").filter
            (fun t => t != "" && referrerPolicySet.contains t)).getLastD ""
    ∧ c4next.referrerPolicy = some (parseReferrerPolicy "unsafe-url,") :=
  ⟨referrer_policy_parse_amended.1 "no-referrer, bogus, unsafe-url,",
   referrer_policy_parse_amended.2 c4resolve {} c4response c4target c4next
     "unsafe-url," rfl (by decide)⟩

/-- C5: on the follow path (mode follow, location present, below the
ceiling) the hop fails with the unreplayable-body error exactly when the
status is not `303` and the record carries a body exposing a one-shot
streaming capability; in particular it never fails otherwise, and never
for status `303` even with a streaming body. -/
theorem unreplayable_stream_body
    (resolve : String → URLRecord → URLRecord) (init : FetchInit)
    (response : FetchResponse) (l : String)
    (hmode : init.redirect = none ∨ init.redirect = some "follow")
    (hloc : response.location = some l)
    (hceil : init.redirectCount.getD 0 < init.maxRedirect.getD 20) :
    handleRedirect resolve init response = .failure .unreplayableBody
      ↔ (response.status ≠ 303 ∧ bodyPresent init.body = true
          ∧ bodyIsOneShot init.body = true) := by
  have hred : handleRedirect resolve init response
      = handleRedirectFollow resolve init response := by
    rcases hmode with hm | hm
    · exact handleRedirect_mode_none _ _ _ hm
    · exact handleRedirect_mode_follow _ _ _ hm
  rw [hred, handleRedirectFollow_eq _ _ _ _ hloc, if_neg (by omega)]
  constructor
  · intro h
    by_cases hb : unreplayableCondition response.status init.body = true
    · have hbb := hb
      unfold unreplayableCondition at hbb
      simp only [Bool.and_eq_true, bne_iff_ne, ne_eq] at hbb
      exact ⟨hbb.1.1, hbb.1.2, hbb.2⟩
    · rw [if_neg hb] at h
      simp at h
  · intro ⟨h1, h2, h3⟩
    rw [if_pos (by simp [unreplayableCondition, h1, h2, h3])]

/-- C5 witness: a `301` with a Node.js stream body fails the check. -/
theorem unreplayable_stream_body_witness :
    handleRedirect w5resolve w5init w5response = .failure .unreplayableBody
      ↔ (w5response.status ≠ 303 ∧ bodyPresent w5init.body = true
          ∧ bodyIsOneShot w5init.body = true) :=
  unreplayable_stream_body w5resolve w5init w5response "/next" (Or.inl rfl) rfl
    (by decide)

/-- C6: the mode dispatch on the caller's original redirect mode: `error`
fails with the redirect-not-allowed error carrying the response URL,
`manual` returns the response unchanged, `follow` (explicit or by default)
continues into the follow path, and any other value fails with the
invalid-option error. -/
theorem redirect_mode_dispatch
    (resolve : String → URLRecord → URLRecord) (init : FetchInit)
    (response : FetchResponse) :
    (init.redirect = some "error" →
      handleRedirect resolve init response
        = .failure (.redirectNotAllowed response.url.href))
    ∧ (init.redirect = some "manual" →
      handleRedirect resolve init response = .terminal response)
    ∧ (init.redirect = none ∨ init.redirect = some "follow" →
      handleRedirect resolve init response
        = handleRedirectFollow resolve init response)
    ∧ (∀ m : String, init.redirect = some m →
      m ≠ "error" → m ≠ "manual" → m ≠ "follow" →
      handleRedirect resolve init response = .failure (.invalidOption m)) := by
  refine ⟨?_, ?_, ?_, ?_⟩
  · exact handleRedirect_mode_error resolve init response
  · exact handleRedirect_mode_manual resolve init response
  · intro hm
    rcases hm with hm | hm
    · exact handleRedirect_mode_none resolve init response hm
    · exact handleRedirect_mode_follow resolve init response hm
  · intro m hm h1 h2 h3
    exact handleRedirect_mode_other resolve init response m hm h1 h2 h3

/-- C6 witness: the four dispatch outcomes on a `302` response. -/
theorem redirect_mode_dispatch_witness :
    handleRedirect w6resolve w6initError w6response
        = .failure (.redirectNotAllowed w6response.url.href)
    ∧ handleRedirect w6resolve w6initManual w6response = .terminal w6response
    ∧ handleRedirect w6resolve w6initFollow w6response
        = handleRedirectFollow w6resolve w6initFollow w6response
    ∧ handleRedirect w6resolve w6initBogus w6response
        = .failure (.invalidOption "weird") :=
  ⟨(redirect_mode_dispatch w6resolve w6initError w6response).1 rfl,
   (redirect_mode_dispatch w6resolve w6initManual w6response).2.1 rfl,
   (redirect_mode_dispatch w6resolve w6initFollow w6response).2.2.1 (Or.inr rfl),
   (redirect_mode_dispatch w6resolve w6initBogus w6response).2.2.2 "weird" rfl
     (by decide) (by decide) (by decide)⟩

/-- C7: a response is treated as a redirect exactly when its status lies in
`{301, 302, 303, 307, 308}`, and on any other status — even with a
`Location` header present — the dispatcher returns the transport's response
verbatim (so its `redirected` flag is whatever the transport set, `false`
on a manual-mode response) when no earlier hop occurred. -/
theorem non_redirect_response_terminal :
    (∀ status : Nat, isRedirect status = true
        ↔ (status = 301 ∨ status = 302 ∨ status = 303 ∨ status = 307
            ∨ status = 308))
    ∧ (∀ (σ : Type) (jm : JarModel σ)
        (transport : RequestInput → FetchInit → FetchResponse)
        (resolve : String → URLRecord → URLRecord) (fuel : Nat) (jar : σ)
        (input : RequestInput) (initOpt : Option FetchInit)
        (resp : FetchResponse),
        (initOpt.getD {}).redirectCount.getD 0 = 0 →
        resp = transport
            (addCookiesToRequest input
              { initOpt.getD {} with redirect := some "manual" }
              (jm.getCookieString jar (requestInputUrl input).href)).1
            (addCookiesToRequest input
              { initOpt.getD {} with redirect := some "manual" }
              (jm.getCookieString jar (requestInputUrl input).href)).2 →
        isRedirect resp.status = false →
        fetchCookieWrapper jm transport resolve (fuel + 1) jar input initOpt
          = some (.ok (resp,
              resp.setCookies.foldl
                (fun j c => jm.setCookie j c resp.url.href) jar))) := by
  constructor
  · intro status
    simp [isRedirect, redirectStatus]
  · intro σ jm transport resolve fuel jar input initOpt resp hcount hresp hnr
    simp only [fetchCookieWrapper]
    dsimp only at hresp
    rw [← hresp]
    have hc0 : (addCookiesToRequest input
        { initOpt.getD {} with redirect := some "manual" }
        (jm.getCookieString jar (requestInputUrl input).href)).2.redirectCount.getD 0
          = 0 := by
      rw [(addCookiesToRequest_preserves _ _ _).1]
      exact hcount
    dsimp only at hc0
    rw [hc0]
    simp only [lt_self_iff_false, if_false]
    rw [hnr]
    simp only [Bool.false_eq_true, if_false]

/-- C7 witness: `304` is not a redirect status, and a `200` response with a
`Location` header is returned verbatim by the dispatcher. -/
theorem non_redirect_response_terminal_witness :
    (isRedirect 304 = true
        ↔ (304 = 301 ∨ 304 = 302 ∨ 304 = 303 ∨ 304 = 307 ∨ 304 = 308))
    ∧ fetchCookieWrapper w7jar w7transport w7resolve 1 () (.urlInput w7url) none
        = some (.ok (w7response,
            w7response.setCookies.foldl
              (fun j c => w7jar.setCookie j c w7response.url.href) ())) :=
  ⟨non_redirect_response_terminal.1 304,
   non_redirect_response_terminal.2 Unit w7jar w7transport w7resolve 0 ()
     (.urlInput w7url) none w7response rfl rfl (by decide)⟩

/-- C8 counterexample: the redirect hop mutates the previous hop's headers
in place.  At heap level, stripping the sensitive headers on a non-covered
`307` deletes `cookie` and `authorization` from the cell the *original*
record still references: the outcome is a followed hop whose record shares
`headersRef` `0` with the original, and the cell at address `0` changed. -/
theorem redirect_hop_mutates_previous_headers :
    handleRedirectHeap c8resolve c8store c8init c8response
        = ([[("accept", "c")]], .follow c8target c8next)
    ∧ c8init.headersRef = some 0
    ∧ c8store[0]? = some [("cookie", "a"), ("authorization", "b"), ("accept", "c")]
    ∧ ([[("accept", "c")]] : HeaderStore)[0]? ≠ c8store[0]? :=
  ⟨by decide, rfl, rfl, by decide⟩

/-- C8 (amended): on every followed hop the record object itself is cloned
forward with updated fields — the clone carries `redirectCount + 1` and the
unchanged mode and limit — but the headers object is *shared by reference*
between the clone and the previous hop's record (`headersRef` is copied
unchanged), so the in-place header deletions of redirect processing are
visible through the previous record; heap cells not referenced by the
record are untouched. -/
theorem redirect_clone_shares_headers
    (resolve : String → URLRecord → URLRecord) (store : HeaderStore)
    (init : HInit) (response : FetchResponse) (store' : HeaderStore)
    (u : URLRecord) (init' : HInit)
    (h : handleRedirectHeap resolve store init response = (store', .follow u init')) :
    init'.headersRef = init.headersRef
    ∧ init'.redirectCount = some (init.redirectCount.getD 0 + 1)
    ∧ init'.redirect = init.redirect
    ∧ init'.maxRedirect = init.maxRedirect
    ∧ (∀ a : Nat, init.headersRef ≠ some a → store'[a]? = store[a]?) := by
  obtain ⟨-, hf⟩ := handleRedirectHeap_follow_mode _ _ _ _ _ _ _ h
  rcases hloc : response.location with _ | l
  · simp [handleRedirectHeapFollow, hloc] at hf
  · rw [handleRedirectHeapFollow_eq _ _ _ _ _ hloc] at hf
    split at hf
    · simp at hf
    · rename_i hceil
      simp only at hf
      split at hf
      · simp at hf
      · rename_i hbody
        rw [Prod.mk.injEq] at hf
        obtain ⟨hstore, hout⟩ := hf
        rw [HOutcome.follow.injEq] at hout
        obtain ⟨hu, hinit⟩ := hout
        subst hstore
        subst hinit
        refine ⟨rfl, rfl, rfl, rfl, ?_⟩
        intro a ha
        have h1 : (if isDomainOrSubdomain response.url (resolve l response.url)
              then store
            else storeDelete (storeDelete (storeDelete (storeDelete store
              init.headersRef "authorization") init.headersRef "www-authenticate")
              init.headersRef "cookie") init.headersRef "cookie2")[a]?
            = store[a]? := by
          split
          · rfl
          · rw [storeDelete_getElem_ne _ _ _ _ ha, storeDelete_getElem_ne _ _ _ _ ha,
              storeDelete_getElem_ne _ _ _ _ ha, storeDelete_getElem_ne _ _ _ _ ha]
        split
        · rw [storeDelete_getElem_ne _ _ _ _ ha, h1]
        · exact h1

/-- C8 witness: the amended statement evaluated on the `c8response` hop. -/
theorem redirect_clone_shares_headers_witness :
    c8next.headersRef = c8init.headersRef
    ∧ c8next.redirectCount = some (c8init.redirectCount.getD 0 + 1)
    ∧ ([[("accept", "c")]] : HeaderStore)[1]? = c8store[1]? :=
  ⟨(redirect_clone_shares_headers c8resolve c8store c8init c8response
      [[("accept", "c")]] c8target c8next (by decide)).1,
   (redirect_clone_shares_headers c8resolve c8store c8init c8response
      [[("accept", "c")]] c8target c8next (by decide)).2.1,
   (redirect_clone_shares_headers c8resolve c8store c8init c8response
      [[("accept", "c")]] c8target c8next (by decide)).2.2.2.2 1 (by decide)⟩

/-- C9: when the target owns no appendable headers and the record's headers
are a plain mapping, injecting a non-empty cookie string produces a new
record by a shallow merge that sets the `cookie` key to the jar-supplied
string — overwriting an existing value under that exact key rather than
merging with it — and leaves every other key unchanged. -/
theorem cookie_injection_overwrites_plain_mapping
    (input : RequestInput) (init : FetchInit) (es : List (String × String))
    (cookie : String)
    (hinput : ∀ v hs, input = RequestInput.requestInput v hs →
      headersAppendable hs = false)
    (hheaders : init.headers = .plainObj es)
    (hcookie : cookie ≠ "") :
    addCookiesToRequest input init cookie
        = (input, { init with headers := .plainObj (objSet es "cookie" cookie) })
    ∧ objGet (objSet es "cookie" cookie) "cookie" = some cookie
    ∧ ∀ k, k ≠ "cookie" →
        objGet (objSet es "cookie" cookie) k = objGet es k := by
  refine ⟨?_, objGet_objSet_self es "cookie" cookie,
    fun k hk => objGet_objSet_ne es "cookie" cookie k hk⟩
  unfold addCookiesToRequest
  rw [if_neg (by simpa using hcookie)]
  cases input with
  | urlInput v =>
    dsimp only
    rw [if_neg (by rw [hheaders]; simp [headersAppendable])]
    rw [hheaders]
    rfl
  | requestInput v hs =>
    have hv := hinput v hs rfl
    dsimp only
    rw [if_neg (by simp [hv]),
      if_neg (by rw [hheaders]; simp [headersAppendable])]
    rw [hheaders]
    rfl

/-- C9 witness: merging `id=1` into a plain mapping that already holds a
`cookie` key overwrites it and keeps the other key. -/
theorem cookie_injection_overwrites_plain_mapping_witness :
    addCookiesToRequest (.urlInput w9url) w9init "id=1"
        = (.urlInput w9url, { w9init with headers := .plainObj w9merged })
    ∧ objGet w9merged "cookie" = some "id=1"
    ∧ objGet w9merged "x-a" = objGet [("cookie", "old"), ("x-a", "1")] "x-a" :=
  ⟨(cookie_injection_overwrites_plain_mapping (.urlInput w9url) w9init
      [("cookie", "old"), ("x-a", "1")] "id=1"
      (fun v hs h => nomatch h) rfl (by decide)).1,
   (cookie_injection_overwrites_plain_mapping (.urlInput w9url) w9init
      [("cookie", "old"), ("x-a", "1")] "id=1"
      (fun v hs h => nomatch h) rfl (by decide)).2.1,
   (cookie_injection_overwrites_plain_mapping (.urlInput w9url) w9init
      [("cookie", "old"), ("x-a", "1")] "id=1"
      (fun v hs h => nomatch h) rfl (by decide)).2.2 "x-a" (by decide)⟩

/-- C10: the `301`/`302` downgrade compares the method to the exact string
`POST`: on a followed `301`/`302` hop whose method is any other spelling,
the method, the body and the `Content-Length` header are forwarded
unchanged. -/
theorem post_downgrade_requires_exact_match
    (resolve : String → URLRecord → URLRecord) (init : FetchInit)
    (response : FetchResponse) (u : URLRecord) (init' : FetchInit) (m : String)
    (h : handleRedirect resolve init response = .follow u init')
    (hst : response.status = 301 ∨ response.status = 302)
    (hm : init.method = some m) (hne : m ≠ "POST") :
    init'.method = some m ∧ init'.body = init.body
      ∧ headerValues init'.headers "content-length"
          = headerValues init.headers "content-length" := by
  obtain ⟨-, hf⟩ := handleRedirect_follow_mode _ _ _ _ _ h
  obtain ⟨l, hloc, hu, hceil, hnb, hred, hcount, hmax, hmeth, hbody, hheaders, hrp⟩ :=
    handleRedirectFollow_spec _ _ _ _ _ hf
  have hdg' : ¬ downgradeCondition response.status init.method = true := by
    rcases hst with h7 | h8
    · simp [downgradeCondition, h7, hm, hne]
    · simp [downgradeCondition, h8, hm, hne]
  refine ⟨by rw [hmeth, if_neg hdg', hm], by rw [hbody, if_neg hdg'], ?_⟩
  rw [hheaders, if_neg hdg']
  split
  · rfl
  · exact headerValues_strip_other _ _ (by decide)

/-- C10 witness: a `301` answer to a request whose method is the lowercase
string `post` forwards method, body and `Content-Length` unchanged. -/
theorem post_downgrade_requires_exact_match_witness :
    w10next.method = some "post" ∧ w10next.body = w10init.body
      ∧ headerValues w10next.headers "content-length"
          = headerValues w10init.headers "content-length" :=
  post_downgrade_requires_exact_match w10resolve w10init w10response w10target
    w10next "post" (by decide) (Or.inl rfl) rfl (by decide)

end FetchCookie

